import Mathlib

/-!
Verification development for the generic CRUD/query controller layer of the
`ksb-pyside-kit` repository (files `controllers/base_controller.py`,
`controllers/base.py`, `authentication/controllers/user_controller.py`,
`components/progress_bar.py`).

The ORM layer is shallowly embedded: a database row is an association list
from column names to values, the stored state is a list of rows, and a model
class is described by its attribute names together with the set of columns
carrying a SQL UNIQUE constraint.  Every stateful controller method becomes a
pure function from the stored state to a pair of (outcome, new stored state);
raising an exception is the `Except.error` outcome, `session.rollback()` in
an error branch is returning the unchanged input state, and `session.commit()`
is returning the modified state.  Ids are supplied explicitly by callers
(as SQLite permits for primary keys); `datetime` values and bcrypt hashes are
opaque strings supplied by parameters.
-/

set_option maxHeartbeats 1000000

namespace Ksb

/-- Column values stored in a row: the claims only need integers and strings
(dates and hashes are represented as strings). -/
inductive Value where
  | int : Int → Value
  | str : String → Value
deriving DecidableEq, Repr

/-- A database row / ORM instance: an association list from column name to
value.  A well-formed row binds each column at most once. -/
abbrev Rec := List (String × Value)

/-- The stored state: the list of rows of the model's table, in table order. -/
abbrev DB := List Rec

/-- Static description of a SQLAlchemy declarative model class: the attribute
names (`hasattr(self.model, f)` is `f ∈ fields`) and the columns that carry a
UNIQUE constraint (whose violation on INSERT raises `IntegrityError`). -/
structure Model where
  fields : List String
  unique : List String
deriving Repr

/-- Read attribute `f` of a row (`getattr(instance, f)`); `none` is SQL NULL /
an unset column. -/
def getF (r : Rec) (f : String) : Option Value :=
  (r.find? (fun kv => kv.1 == f)).map (fun kv => kv.2)

/-- Set attribute `f` of a row to `v` (`setattr(instance, f, v)` / SQL
`SET f = v`): replace the binding of `f`, or append one when absent. -/
def setF (r : Rec) (f : String) (v : Value) : Rec :=
  match r with
  | [] => [(f, v)]
  | kv :: rest => if kv.1 == f then (f, v) :: rest else kv :: setF rest f v

/-- Apply a keyword-argument dictionary to a row, setting each field in
order. -/
def applyKwargs (r : Rec) (kwargs : Rec) : Rec :=
  kwargs.foldl (fun acc kv => setF acc kv.1 kv.2) r

/-- The primary-key column of every model in this repository is `id`. -/
def recordId (r : Rec) : Option Value :=
  getF r "id"

/-- Decide whether a row's `id` column equals the integer `id_`
(the predicate compiled from `self.model.id == id_`). -/
def hasId (id_ : Int) (r : Rec) : Bool :=
  recordId r == some (.int id_)

/-- The exception types raised by the controller / auth layer
(`RecordNotFoundError`, `RecordAlreadyExistsError`, Python's `ValueError`,
`PasswordValidationError`). -/
inductive Err where
  | recordNotFound
  | recordAlreadyExists
  | valueError
  | passwordValidation
deriving DecidableEq, Repr

/-- A value passed as a filter argument: either a scalar or a Python
list/tuple. -/
inductive FilterVal where
  | v : Value → FilterVal
  | list : List Value → FilterVal
deriving DecidableEq, Repr

/-- SQL `<` on two values: defined for matching types, false across types
(modelling the three-valued SQL comparison collapsing to "row not
selected"). -/
def vlt : Value → Value → Bool
  | .int a, .int b => decide (a < b)
  | .str a, .str b => compare a b == Ordering.lt
  | _, _ => false

/-- SQL `<=` on two values. -/
def vle (a b : Value) : Bool :=
  vlt a b || a == b

/-- Decide whether `p` occurs as a contiguous run inside `s`. -/
def infixOf (p s : List Char) : Bool :=
  match s with
  | [] => p.isEmpty
  | _ :: t => p.isPrefixOf s || infixOf p t

/-- SQL `LIKE '%p%'` for a wildcard-free needle `p`: substring containment. -/
def strContains (s p : String) : Bool :=
  infixOf p.toList s.toList

/-- Python's `key.split('__')` on the character level: scan left to right,
splitting at each non-overlapping occurrence of the two-character separator
`'__'`. -/
def splitDunder : List Char → List (List Char)
  | [] => [[]]
  | '_' :: '_' :: t => [] :: splitDunder t
  | c :: t =>
    match splitDunder t with
    | [] => [[c]]
    | h :: rest => (c :: h) :: rest

/-- The parts of `key.split('__')` as strings. -/
def splitParts (key : String) : List String :=
  (splitDunder key.toList).map List.asString

namespace base_controller

/-- Embedding of `BaseController._apply_filters` from
`controllers/base_controller.py`: for each filter key that is an attribute of
the model, a list/tuple value contributes an `IN` predicate and any other
value an equality predicate; keys that are not attributes are skipped. -/
def apply_filters (m : Model) (db : DB) (filters : List (String × FilterVal)) : DB :=
  filters.foldl (fun q kv =>
    if m.fields.contains kv.1 then
      match kv.2 with
      | .list vs => q.filter (fun r =>
          match getF r kv.1 with
          | some v => vs.contains v
          | none => false)
      | .v v => q.filter (fun r => getF r kv.1 == some v)
    else q) db

/-- Decide whether inserting `inst` into `db` violates a UNIQUE constraint of
model `m`: some existing row agrees with `inst` on some unique column (SQL
NULLs never conflict).  This is the event on which the database backend
raises `IntegrityError`. -/
def uniqueConflict (m : Model) (db : DB) (inst : Rec) : Bool :=
  db.any (fun r => m.unique.any (fun f =>
    match getF inst f with
    | some v => getF r f == some v
    | none => false))

/-- Embedding of `BaseController.create` from `controllers/base_controller.py`:
build the instance from the keyword arguments, add and commit; on
`IntegrityError` roll back and raise `RecordAlreadyExistsError`. -/
def create (m : Model) (db : DB) (kwargs : Rec) : Except Err Rec × DB :=
  let inst := kwargs
  if uniqueConflict m db inst then
    (.error .recordAlreadyExists, db)
  else
    (.ok inst, db ++ [inst])

/-- Embedding of `BaseController.get_by_id` from
`controllers/base_controller.py`: `session.query(model).get(id_)` is the
first (unique, for a primary key) row whose `id` equals `id_`; raise
`RecordNotFoundError` when there is none.  The method performs no write. -/
def get_by_id (db : DB) (id_ : Int) : Except Err Rec × DB :=
  match db.find? (hasId id_) with
  | some inst => (.ok inst, db)
  | none => (.error .recordNotFound, db)

/-- Embedding of `BaseController.update` from
`controllers/base_controller.py`: reject keyword keys that are not model
attributes with `ValueError`; run a bulk `UPDATE ... WHERE id = id_`; if no
row matched raise `RecordNotFoundError` (rolling back the uncommitted
update); otherwise commit and return `get_by_id(id_)` evaluated on the
committed state (a failure of that final fetch is re-raised after the commit,
which a rollback can no longer undo). -/
def update (m : Model) (db : DB) (id_ : Int) (kwargs : Rec) : Except Err Rec × DB :=
  if kwargs.any (fun kv => !(m.fields.contains kv.1)) then
    (.error .valueError, db)
  else
    let rows_updated := (db.filter (hasId id_)).length
    if rows_updated = 0 then
      (.error .recordNotFound, db)
    else
      let db2 := db.map (fun r => if hasId id_ r then applyKwargs r kwargs else r)
      match (get_by_id db2 id_).1 with
      | .ok inst => (.ok inst, db2)
      | .error e => (.error e, db2)

/-- Embedding of `BaseController.delete` from
`controllers/base_controller.py`: bulk `DELETE ... WHERE id = id_`; if no row
matched raise `RecordNotFoundError`, otherwise commit and return `True`. -/
def delete (db : DB) (id_ : Int) : Except Err Bool × DB :=
  let rows_deleted := (db.filter (hasId id_)).length
  if rows_deleted = 0 then
    (.error .recordNotFound, db)
  else
    (.ok true, db.filter (fun r => !(hasId id_ r)))

/-- Embedding of `BaseController.count` from `controllers/base_controller.py`:
`SELECT count(id) FROM ... WHERE filters` — the number of rows matching the
filters whose `id` column is not NULL.  Read-only. -/
def count (m : Model) (db : DB) (filters : List (String × FilterVal)) : Nat × DB :=
  (((apply_filters m db filters).filter (fun r => (recordId r).isSome)).length, db)

/-- Embedding of `BaseController.exists` from
`controllers/base_controller.py`: `return self.count(**filters) > 0`. -/
def exists_ (m : Model) (db : DB) (filters : List (String × FilterVal)) : Bool × DB :=
  let c := count m db filters
  (decide (c.1 > 0), c.2)

/-- The dictionary returned by `BaseController.paginate`: its five keys
`'items'`, `'total'`, `'page'`, `'per_page'`, `'pages'` become the five
fields of this structure. -/
structure PageResult where
  items : List Rec
  total : Int
  page : Int
  per_page : Int
  pages : Int
deriving DecidableEq, Repr

/-- The offset computed by `paginate`: `offset = (page - 1) * per_page`. -/
def paginateOffset (page per_page : Int) : Int :=
  (page - 1) * per_page

/-- Embedding of `BaseController.paginate` from
`controllers/base_controller.py`: apply the filters, count the matching rows,
then fetch `OFFSET (page-1)*per_page LIMIT per_page`.  SQL `OFFSET`/`LIMIT`
with a negative argument selects from the start / everything in SQLite, so
both are clamped at zero via `Int.toNat`; the claims about `items` only
concern `per_page ≥ 1`.  `pages` uses Python's floor division `//`, which is
`Int.fdiv`.  No argument validation is performed and no write happens. -/
def paginate (m : Model) (db : DB) (page per_page : Int)
    (filters : List (String × FilterVal)) : PageResult × DB :=
  let query := apply_filters m db filters
  let offset := paginateOffset page per_page
  let total : Int := query.length
  let items := (query.drop offset.toNat).take per_page.toNat
  ({ items := items, total := total, page := page, per_page := per_page,
     pages := (total + per_page - 1).fdiv per_page }, db)

/-- The operators recognised by the dispatch of
`BaseController.find_by_attributes` in `controllers/base_controller.py`. -/
def recognized_operators : List String :=
  ["like", "in", "gt", "lt", "gte", "lte"]

/-- Row-level meaning of one recognised operator applied to a filter value
and the row's column value: `like` is a `%value%` substring match, `in` is
membership in the given list, `gt`/`lt`/`gte`/`lte` compare the column with
the value (`column > value` etc.).  A NULL column, a type mismatch, or a
non-list argument to `in` selects nothing, as in SQL. -/
def op_sem (operator : String) (value : FilterVal) (colVal : Option Value) : Bool :=
  match operator with
  | "like" =>
    match value, colVal with
    | .v (.str p), some (.str s) => strContains s p
    | _, _ => false
  | "in" =>
    match value, colVal with
    | .list vs, some c => vs.contains c
    | _, _ => false
  | "gt" =>
    match value, colVal with
    | .v v, some c => vlt v c
    | _, _ => false
  | "lt" =>
    match value, colVal with
    | .v v, some c => vlt c v
    | _, _ => false
  | "gte" =>
    match value, colVal with
    | .v v, some c => vle v c
    | _, _ => false
  | "lte" =>
    match value, colVal with
    | .v v, some c => vle c v
    | _, _ => false
  | _ => false

/-- The predicates one keyword argument of `find_by_attributes` contributes
(zero or one).  A key containing `'__'` is destructured by
`field, operator = key.split('__')`, which raises `ValueError` when the split
yields more than two parts; a key whose field is not a model attribute, or
whose operator is not in the dispatch, contributes nothing; a key without
`'__'` that is a model attribute contributes an equality predicate. -/
def key_filters (m : Model) (key : String) (value : FilterVal) :
    Except Err (List (Rec → Bool)) :=
  if (splitParts key).length > 1 then
    match splitParts key with
    | [field, operator] =>
      if m.fields.contains field then
        if recognized_operators.contains operator then
          .ok [fun r => op_sem operator value (getF r field)]
        else
          .ok []
      else
        .ok []
    | _ => .error .valueError
  else
    if m.fields.contains key then
      .ok [fun r =>
        match value with
        | .v v => getF r key == some v
        | .list _ => false]
    else
      .ok []

/-- The filter list built by the loop of `find_by_attributes`, in order;
`Except` propagates the `ValueError` of a malformed key. -/
def collect_filters (m : Model) : List (String × FilterVal) → Except Err (List (Rec → Bool))
  | [] => .ok []
  | kv :: rest =>
    match key_filters m kv.1 kv.2 with
    | .error e => .error e
    | .ok fs =>
      match collect_filters m rest with
      | .error e => .error e
      | .ok fs2 => .ok (fs ++ fs2)

/-- Embedding of `BaseController.find_by_attributes` from
`controllers/base_controller.py`: build the filter list from the keyword
arguments and return the rows satisfying `and_(*filters)` — the conjunction
of all contributed predicates (all rows when none was contributed). -/
def find_by_attributes (m : Model) (db : DB) (kwargs : List (String × FilterVal)) :
    Except Err (List Rec) :=
  match collect_filters m kwargs with
  | .error e => .error e
  | .ok fs => .ok (db.filter (fun r => fs.all (fun f => f r)))

/-- The conjunction of the predicates one keyword argument contributes at a
row (`true` when it contributes none); used to state what
`find_by_attributes` filters by. -/
def contributed (m : Model) (kv : String × FilterVal) (r : Rec) : Bool :=
  match key_filters m kv.1 kv.2 with
  | .ok l => l.all (fun f => f r)
  | .error _ => true

end base_controller

namespace base

/-- Embedding of `BaseController.get_by_id` from `controllers/base.py`
(textually identical to the `base_controller.py` version). -/
def get_by_id (db : DB) (id_ : Int) : Except Err Rec × DB :=
  match db.find? (hasId id_) with
  | some inst => (.ok inst, db)
  | none => (.error .recordNotFound, db)

/-- Embedding of `BaseController.delete` from `controllers/base.py`: fetch
the instance with `get_by_id`, delete it and commit, returning `True`; a
`RecordNotFoundError` from the fetch is caught and turned into the return
value `False`.  `session.delete(instance)` issues `DELETE ... WHERE id =
instance.id`. -/
def delete (db : DB) (id_ : Int) : Except Err Bool × DB :=
  match (get_by_id db id_).1 with
  | .error _ => (.ok false, db)
  | .ok inst => (.ok true, db.filter (fun r => !(recordId r == recordId inst)))

/-- Embedding of the static helper `BaseController._validate_pagination` from
`controllers/base.py`: raise `ValueError` when `page < 1` or `per_page < 1`.
No method of either controller ever calls it. -/
def validate_pagination (page per_page : Int) : Except Err Unit :=
  if page < 1 then .error .valueError
  else if per_page < 1 then .error .valueError
  else .ok ()

end base

namespace AuthController

/-- Password length bounds from `AuthController` in
`authentication/controllers/user_controller.py`. -/
def MIN_LENGTH : Nat := 8

/-- Maximum password length. -/
def MAX_LENGTH : Nat := 50

/-- The character class of the special-character check of
`_validate_password`, written out character by character (apostrophe,
backtick and braces by code point).  Note `: ; < = > ?` are absent. -/
def special_characters : List Char :=
  [' ', '!', '@', '#', '$', '%', '&', Char.ofNat 39, '(', ')', '*', '+', ',',
   '-', '.', '/', '[', '\\', ']', '^', '_', Char.ofNat 96, Char.ofNat 123,
   '|', Char.ofNat 125, '~', '"']

/-- Embedding of `AuthController._validate_password`: length between
`MIN_LENGTH` and `MAX_LENGTH` inclusive, then one regex search each for an
uppercase letter `[A-Z]`, a lowercase letter `[a-z]`, a digit and a special
character, returning `(is_valid, error_message)`.  Digits are modelled as the
ASCII digits `0`-`9`. -/
def validate_password (password : String) : Bool × Option String :=
  if !(decide (MIN_LENGTH ≤ password.length) && decide (password.length ≤ MAX_LENGTH)) then
    (false, some "Password must be between 8 and 50 characters")
  else if !(password.toList.any (fun c => decide ('A' ≤ c) && decide (c ≤ 'Z'))) then
    (false, some "Password must contain at least one uppercase letter")
  else if !(password.toList.any (fun c => decide ('a' ≤ c) && decide (c ≤ 'z'))) then
    (false, some "Password must contain at least one lowercase letter")
  else if !(password.toList.any (fun c => decide ('0' ≤ c) && decide (c ≤ '9'))) then
    (false, some "Password must contain at least one digit")
  else if !(password.toList.any (fun c => special_characters.contains c)) then
    (false, some "Password must contain at least one special character")
  else
    (true, none)

/-- The `UserModel` declarative class
(`authentication/models/user_model.py` plus the `BaseModel` columns):
attribute names, with UNIQUE constraints on the primary key `id` and on
`username` and `email`. -/
def UserModel : Model :=
  { fields := ["id", "created_at", "updated_at", "username", "email",
               "password", "first_name", "last_name", "user_type",
               "is_active", "secret_question", "secret_answer",
               "last_login", "date_joined"],
    unique := ["id", "username", "email"] }

/-- Optional constructor argument: Python `None` sets the column to NULL. -/
def optField (f : String) : Option String → Rec
  | some s => [(f, .str s)]
  | none => []

/-- Embedding of `AuthController.create_user`: validate the password
(raising `PasswordValidationError` with the message when it fails), return
`None` when the username or email is already taken, otherwise create the user
with the bcrypt-hashed password and lower-cased hashed secret answer; any
exception from the creation itself is swallowed into `None`.  `hash` stands
for `_hash_password` (bcrypt, an external library) and `now` for
`datetime.now()`. -/
def create_user (hash : String → String) (now : String) (db : DB)
    (username email password secret_question secret_answer : String)
    (first_name last_name : Option String) (user_type : String) :
    Except Err (Option Rec) × DB :=
  if !(validate_password password).1 then
    (.error .passwordValidation, db)
  else if (base_controller.exists_ UserModel db [("username", .v (.str username))]).1
       || (base_controller.exists_ UserModel db [("email", .v (.str email))]).1 then
    (.ok none, db)
  else
    match base_controller.create UserModel db
      ([("username", .str username), ("email", .str email),
        ("password", .str (hash password)),
        ("secret_question", .str secret_question),
        ("secret_answer", .str (hash secret_answer.toLower))] ++
       optField "first_name" first_name ++
       optField "last_name" last_name ++
       [("user_type", .str user_type), ("date_joined", .str now)]) with
    | (.ok inst, db2) => (.ok (some inst), db2)
    | (.error _, db2) => (.ok none, db2)

/-- Embedding of `AuthController.change_password`: validate the new password
(raising `PasswordValidationError` when it fails, before touching the store),
then `self.update(user_id, password=hashed)` and return `True`; any exception
from the update is swallowed into `False`. -/
def change_password (hash : String → String) (db : DB) (user_id : Int)
    (new_password : String) : Except Err Bool × DB :=
  if !(validate_password new_password).1 then
    (.error .passwordValidation, db)
  else
    match base_controller.update UserModel db user_id
        [("password", .str (hash new_password))] with
    | (.ok _, db2) => (.ok true, db2)
    | (.error _, db2) => (.ok false, db2)

end AuthController

namespace ProgressWorker

/-- The mutable state of a `ProgressWorker`
(`components/progress_bar.py`): the cooperative cancellation flag
`_is_running` (the other attributes `func`, `args`, `kwargs` are set once in
`__init__` and never written again). -/
structure State where
  is_running : Bool
deriving DecidableEq, Repr

/-- State after `__init__`: the flag starts `True`. -/
def init : State :=
  { is_running := true }

/-- Embedding of `ProgressWorker.stop`: set the flag to `False`. -/
def stop (s : State) : State :=
  { s with is_running := false }

/-- Reading the flag through the `is_running` closure handed to the worker
function (`lambda: self._is_running`). -/
def read_is_running (s : State) : Bool :=
  s.is_running

/-- The methods of `ProgressWorker` that can run after construction; this is
the worker's entire public and private surface besides `run`'s own reads. -/
inductive Method where
  | stop
  | progress_callback
  | label_callback
deriving DecidableEq, Repr

/-- Effect of each method on the state: only `stop` writes the flag, and it
writes `False`; the two callbacks merely emit signals. -/
def step (s : State) : Method → State
  | .stop => stop s
  | .progress_callback => s
  | .label_callback => s

/-- Run a sequence of method calls from a state. -/
def runTrace (s : State) (ms : List Method) : State :=
  ms.foldl step s

end ProgressWorker

/-- The primary-key invariant a real table satisfies: no two rows carry the
same (non-NULL) `id` value. -/
def uniqueIds (db : DB) : Prop :=
  (db.filterMap recordId).Nodup

/-- Concrete model used to exercise the theorems on concrete inputs: three
attributes, with UNIQUE constraints on `id` and `name`. -/
def sampleModel : Model :=
  { fields := ["id", "name", "age"], unique := ["id", "name"] }

/-- Concrete row with id 1. -/
def sampleRec1 : Rec :=
  [("id", .int 1), ("name", .str "alice"), ("age", .int 30)]

/-- Concrete row with id 2. -/
def sampleRec2 : Rec :=
  [("id", .int 2), ("name", .str "bob"), ("age", .int 20)]

/-- Concrete two-row stored state. -/
def sampleDb : DB :=
  [sampleRec1, sampleRec2]

theorem getF_nil (g : String) : getF [] g = none := rfl

theorem getF_cons (kv : String × Value) (rest : Rec) (g : String) :
    getF (kv :: rest) g = if kv.1 = g then some kv.2 else getF rest g := by
  by_cases h : kv.1 = g <;> simp [getF, List.find?_cons, h]

theorem getF_setF (r : Rec) (f g : String) (v : Value) :
    getF (setF r f v) g = if g = f then some v else getF r g := by
  induction r with
  | nil =>
    show getF [(f, v)] g = _
    rw [getF_cons, getF_nil]
    by_cases h : g = f
    · simp [h]
    · have h' : ¬(f = g) := fun hh => h hh.symm
      rw [if_neg h', if_neg h]
  | cons kv rest ih =>
    obtain ⟨k0, v0⟩ := kv
    by_cases h1 : k0 = f
    · show getF (if (k0 == f) = true then (f, v) :: rest else _) g = _
      rw [if_pos (beq_iff_eq.mpr h1)]
      rw [getF_cons, getF_cons]
      by_cases h2 : g = f
      · simp [h2]
      · have h2' : ¬(f = g) := fun hh => h2 hh.symm
        have h2k : ¬(k0 = g) := fun hh => h2 (hh.symm.trans h1 : g = f)
        simp [h2, h2', h2k]
    · show getF (if (k0 == f) = true then (f, v) :: rest else (k0, v0) :: setF rest f v) g = _
      rw [if_neg (by simpa using h1)]
      rw [getF_cons, getF_cons, ih]
      by_cases h2 : k0 = g
      · have hgf : ¬(g = f) := fun hh => h1 (h2.trans hh)
        simp [h2, hgf]
      · simp [h2]

theorem getF_eq_none_of_not_mem (r : Rec) (g : String)
    (h : ∀ kv ∈ r, kv.1 ≠ g) : getF r g = none := by
  have hf : r.find? (fun kv => kv.1 == g) = none :=
    List.find?_eq_none.mpr (fun kv hm => by simpa using h kv hm)
  simp [getF, hf]

theorem applyKwargs_cons (r : Rec) (k : String) (v : Value) (rest : Rec) :
    applyKwargs r ((k, v) :: rest) = applyKwargs (setF r k v) rest := rfl

theorem getF_applyKwargs (kwargs : Rec) (r : Rec) (g : String)
    (hn : (kwargs.map Prod.fst).Nodup) :
    getF (applyKwargs r kwargs) g = (getF kwargs g).or (getF r g) := by
  induction kwargs generalizing r with
  | nil => simp [applyKwargs, getF_nil]
  | cons kv rest ih =>
    obtain ⟨k, v⟩ := kv
    simp only [List.map_cons, List.nodup_cons, List.mem_map] at hn
    rw [applyKwargs_cons, ih (setF r k v) hn.2]
    by_cases h : k = g
    · subst h
      have hrest : getF rest k = none := by
        apply getF_eq_none_of_not_mem
        intro kv hm he
        exact hn.1 ⟨kv, hm, he⟩
      simp [getF_cons, hrest, getF_setF]
    · have h' : ¬(g = k) := fun hh => h hh.symm
      simp [getF_cons, h, h', getF_setF]

theorem getF_applyKwargs_id (kwargs : Rec) (id_ : Int)
    (hid : ∀ kv ∈ kwargs, kv.1 = "id" → kv.2 = .int id_) (r : Rec)
    (hr : getF r "id" = some (.int id_)) :
    getF (applyKwargs r kwargs) "id" = some (.int id_) := by
  induction kwargs generalizing r with
  | nil => simpa [applyKwargs] using hr
  | cons kv rest ih =>
    obtain ⟨k, v⟩ := kv
    rw [applyKwargs_cons]
    refine ih (fun kv hm => hid kv (List.mem_cons_of_mem _ hm)) _ ?_
    rw [getF_setF]
    by_cases h : "id" = k
    · have hv : v = .int id_ := hid (k, v) (List.mem_cons_self _ _) h.symm
      simp [h, hv]
    · simpa [h] using hr

theorem find?_map_pres {α : Type} (p : α → Bool) (f : α → α)
    (h : ∀ x, p (f x) = p x) (l : List α) :
    (l.map f).find? p = (l.find? p).map f := by
  induction l with
  | nil => rfl
  | cons a t ih =>
    simp only [List.map_cons, List.find?_cons, h a]
    cases hp : p a <;> simp [ih]

theorem uniqueIds_tail (a : Rec) (t : DB) (h : uniqueIds (a :: t)) : uniqueIds t := by
  unfold uniqueIds at *
  rw [List.filterMap_cons] at h
  cases hr : recordId a with
  | none => rwa [hr] at h
  | some v => rw [hr] at h; exact h.of_cons

theorem find?_hasId_eq_some (db : DB) (n : Int) (hu : uniqueIds db) (r : Rec)
    (hr : r ∈ db) (h : hasId n r = true) : db.find? (hasId n) = some r := by
  induction db with
  | nil => cases hr
  | cons a t ih =>
    by_cases ha : hasId n a
    · rw [List.find?_cons_of_pos _ ha]
      rcases List.mem_cons.mp hr with he | ht
      · rw [he]
      · exfalso
        have hra : recordId a = some (.int n) := by
          simpa [hasId] using ha
        have hrr : recordId r = some (.int n) := by
          simpa [hasId] using h
        unfold uniqueIds at hu
        rw [List.filterMap_cons, hra] at hu
        have : Value.int n ∈ t.filterMap recordId :=
          List.mem_filterMap.mpr ⟨r, ht, hrr⟩
        exact (List.nodup_cons.mp hu).1 this
    · rw [List.find?_cons_of_neg _ ha]
      rcases List.mem_cons.mp hr with he | ht
      · exact absurd (he ▸ h) ha
      · exact ih (uniqueIds_tail a t hu) ht

/-- C9: `BaseController.exists(**filters)` returns `True` exactly when
`BaseController.count(**filters)` is strictly positive, and neither
operation changes the stored state. -/
theorem C9_exists_iff_count_pos (m : Model) (db : DB)
    (filters : List (String × FilterVal)) :
    ((base_controller.exists_ m db filters).1 = true ↔
      0 < (base_controller.count m db filters).1) ∧
    (base_controller.exists_ m db filters).2 = db ∧
    (base_controller.count m db filters).2 = db := by
  simp [base_controller.exists_, base_controller.count]

/-- Closed witness for C9 at a concrete filter. -/
theorem C9_witness :
    (base_controller.exists_ sampleModel sampleDb
        [("age", FilterVal.v (Value.int 20))]).1 = true ∧
    (base_controller.count sampleModel sampleDb
        [("age", FilterVal.v (Value.int 20))]).2 = sampleDb := by
  constructor
  · exact (C9_exists_iff_count_pos sampleModel sampleDb _).1.mpr (by decide)
  · exact (C9_exists_iff_count_pos sampleModel sampleDb _).2.2

/-- C7: the `_is_running` flag of `ProgressWorker` starts `True`, `stop()`
sets it to `False`, no method ever sets it back to `True`, and after a
`stop()` every later read of the `is_running` closure returns `False`,
whatever methods run in between. -/
theorem C7_progress_worker_cancellation :
    ProgressWorker.init.is_running = true ∧
    (∀ s, (ProgressWorker.stop s).is_running = false) ∧
    (∀ s m, (ProgressWorker.step s m).is_running = true → s.is_running = true) ∧
    (∀ s ms, ProgressWorker.read_is_running
        (ProgressWorker.runTrace (ProgressWorker.stop s) ms) = false) := by
  have hstep : ∀ (t : ProgressWorker.State) (ms : List ProgressWorker.Method),
      t.is_running = false → (ProgressWorker.runTrace t ms).is_running = false := by
    intro t ms
    induction ms generalizing t with
    | nil => intro h; exact h
    | cons m rest ih =>
      intro h
      have : (ProgressWorker.step t m).is_running = false := by
        cases m
        · rfl
        · exact h
        · exact h
      simpa [ProgressWorker.runTrace] using ih _ this
  refine ⟨rfl, fun s => rfl, ?_, ?_⟩
  · intro s m h
    cases m
    · exact absurd (show (false : Bool) = true from h) Bool.false_ne_true
    · exact h
    · exact h
  · intro s ms
    exact hstep _ ms rfl

/-- Closed witness for C7 at a concrete trace. -/
theorem C7_witness :
    ProgressWorker.read_is_running
      (ProgressWorker.runTrace (ProgressWorker.stop ProgressWorker.init)
        [ProgressWorker.Method.progress_callback,
         ProgressWorker.Method.label_callback]) = false :=
  C7_progress_worker_cancellation.2.2.2 ProgressWorker.init _

/-- C3: `get_by_id(id_)` raises `RecordNotFoundError` exactly when no row
has primary key `id_`; with the primary-key invariant it returns the row
with that id when one exists; the stored state is unchanged in all cases. -/
theorem C3_get_by_id_spec (db : DB) (id_ : Int) :
    ((base_controller.get_by_id db id_).1 = .error .recordNotFound ↔
      ∀ r ∈ db, recordId r ≠ some (.int id_)) ∧
    (base_controller.get_by_id db id_).2 = db ∧
    (uniqueIds db → ∀ r ∈ db, recordId r = some (.int id_) →
      (base_controller.get_by_id db id_).1 = .ok r) := by
  cases hf : db.find? (hasId id_) with
  | none =>
    have hres : base_controller.get_by_id db id_ = (.error .recordNotFound, db) := by
      unfold base_controller.get_by_id
      rw [hf]
    have hall := List.find?_eq_none.mp hf
    rw [hres]
    refine ⟨?_, rfl, ?_⟩
    · constructor
      · intro _ r hr hid
        exact hall r hr (by simp [hasId, hid])
      · intro _
        rfl
    · intro hu r hr hid
      exact absurd (show hasId id_ r = true by simp [hasId, hid]) (hall r hr)
  | some a =>
    have hres : base_controller.get_by_id db id_ = (.ok a, db) := by
      unfold base_controller.get_by_id
      rw [hf]
    have ha : hasId id_ a = true := List.find?_some hf
    have ham : a ∈ db := List.mem_of_find?_eq_some hf
    rw [hres]
    refine ⟨?_, rfl, ?_⟩
    · constructor
      · intro h
        cases h
      · intro h
        exact absurd (show recordId a = some (.int id_) by simpa [hasId] using ha) (h a ham)
    · intro hu r hr hid
      have hfr := find?_hasId_eq_some db id_ hu r hr (by simp [hasId, hid])
      rw [hf] at hfr
      obtain rfl : a = r := by simpa using hfr
      rfl

/-- Closed witness for C3: on the concrete store, id 2 is found and id 7 is
not. -/
theorem C3_witness :
    (base_controller.get_by_id sampleDb 2).1 = .ok sampleRec2 ∧
    (base_controller.get_by_id sampleDb 7).1 = .error .recordNotFound := by
  constructor
  · exact (C3_get_by_id_spec sampleDb 2).2.2 (by unfold uniqueIds; decide)
      sampleRec2 (by decide) (by decide)
  · exact (C3_get_by_id_spec sampleDb 7).1.mpr (by decide)

theorem uniqueConflict_iff (m : Model) (db : DB) (inst : Rec) :
    base_controller.uniqueConflict m db inst = true ↔
      ∃ r ∈ db, ∃ f ∈ m.unique, ∃ v, getF inst f = some v ∧ getF r f = some v := by
  unfold base_controller.uniqueConflict
  rw [List.any_eq_true]
  constructor
  · rintro ⟨r, hr, hany⟩
    rw [List.any_eq_true] at hany
    obtain ⟨f, hf, hm⟩ := hany
    refine ⟨r, hr, f, hf, ?_⟩
    cases ho : getF inst f with
    | none => rw [ho] at hm; cases hm
    | some v =>
      rw [ho] at hm
      exact ⟨v, rfl, by simpa using hm⟩
  · rintro ⟨r, hr, f, hf, v, hv1, hv2⟩
    refine ⟨r, hr, ?_⟩
    rw [List.any_eq_true]
    refine ⟨f, hf, ?_⟩
    rw [hv1]
    simp [hv2]

/-- C1: `create(**kwargs)` raises `RecordAlreadyExistsError` exactly when a
stored row already carries one of the new row's unique-column values, and
then the store is unchanged (rollback); otherwise it commits, appending the
new row, and returns the created instance. -/
theorem C1_create_integrity (m : Model) (db : DB) (kwargs : Rec) :
    ((base_controller.create m db kwargs).1 = .error .recordAlreadyExists ↔
      ∃ r ∈ db, ∃ f ∈ m.unique, ∃ v, getF kwargs f = some v ∧ getF r f = some v) ∧
    ((base_controller.create m db kwargs).1 = .error .recordAlreadyExists →
      (base_controller.create m db kwargs).2 = db) ∧
    ((∀ r ∈ db, ∀ f ∈ m.unique, (getF kwargs f).isSome → getF r f ≠ getF kwargs f) →
      base_controller.create m db kwargs = (.ok kwargs, db ++ [kwargs])) := by
  have hiff := uniqueConflict_iff m db kwargs
  by_cases h : base_controller.uniqueConflict m db kwargs = true
  · have hres : base_controller.create m db kwargs = (.error .recordAlreadyExists, db) := by
      unfold base_controller.create
      rw [if_pos h]
    rw [hres]
    refine ⟨⟨fun _ => hiff.mp h, fun _ => rfl⟩, fun _ => rfl, ?_⟩
    intro hno
    obtain ⟨r, hr, f, hf, v, hv1, hv2⟩ := hiff.mp h
    exact absurd (hv2.trans hv1.symm) (hno r hr f hf (by simp [hv1]))
  · have hres : base_controller.create m db kwargs = (.ok kwargs, db ++ [kwargs]) := by
      unfold base_controller.create
      rw [if_neg h]
    rw [hres]
    refine ⟨⟨fun hcon => Except.noConfusion hcon, fun hex => absurd (hiff.mpr hex) h⟩,
      fun hcon => Except.noConfusion hcon, fun _ => rfl⟩

/-- Closed witness for C1: creating a fresh row appends and returns it;
creating a row that reuses the unique `name` of a stored row errors with the
store unchanged. -/
theorem C1_witness :
    base_controller.create sampleModel sampleDb
        [("id", Value.int 3), ("name", Value.str "carol")] =
      (.ok [("id", Value.int 3), ("name", Value.str "carol")],
        sampleDb ++ [[("id", Value.int 3), ("name", Value.str "carol")]]) ∧
    (base_controller.create sampleModel sampleDb
        [("id", Value.int 3), ("name", Value.str "alice")]).1 = .error .recordAlreadyExists := by
  constructor
  · exact (C1_create_integrity sampleModel sampleDb _).2.2 (by decide)
  · exact (C1_create_integrity sampleModel sampleDb _).1.mpr
      ⟨sampleRec1, by decide, "name", by decide, .str "alice", by decide, by decide⟩

/-- C8 as stated is false: on an empty store, `delete` in
`controllers/base.py` returns `False` while `delete` in
`controllers/base_controller.py` raises `RecordNotFoundError`. -/
theorem C8_counterexample :
    (base.delete ([] : DB) 1).1 = .ok false ∧
    (base_controller.delete ([] : DB) 1).1 = .error .recordNotFound := by
  exact ⟨rfl, rfl⟩

/-- C8 (amended): the two `delete` implementations agree — same return
value, same resulting store — whenever a row with the requested id exists;
when none exists, both leave the store unchanged but `base.py` returns
`False` while `base_controller.py` raises `RecordNotFoundError`. -/
theorem C8_delete_equivalence (db : DB) (id_ : Int) :
    ((∃ r ∈ db, recordId r = some (.int id_)) →
      base.delete db id_ = base_controller.delete db id_ ∧
      (base.delete db id_).1 = .ok true) ∧
    ((∀ r ∈ db, recordId r ≠ some (.int id_)) →
      base.delete db id_ = (.ok false, db) ∧
      base_controller.delete db id_ = (.error .recordNotFound, db)) := by
  constructor
  · rintro ⟨r, hr, hid⟩
    cases hf : db.find? (hasId id_) with
    | none =>
      exact absurd (show hasId id_ r = true by simp [hasId, hid])
        (List.find?_eq_none.mp hf r hr)
    | some a =>
      have ha : hasId id_ a = true := List.find?_some hf
      have hra : recordId a = some (.int id_) := by simpa [hasId] using ha
      have ham : a ∈ db := List.mem_of_find?_eq_some hf
      have hbase : base.delete db id_ =
          (.ok true, db.filter (fun x => !(recordId x == recordId a))) := by
        unfold base.delete base.get_by_id
        rw [hf]
      have hflen : (db.filter (hasId id_)).length ≠ 0 := by
        have hmm : a ∈ db.filter (hasId id_) := List.mem_filter.mpr ⟨ham, ha⟩
        intro h0
        rw [List.length_eq_zero] at h0
        rw [h0] at hmm
        cases hmm
      have hbc : base_controller.delete db id_ =
          (.ok true, db.filter (fun x => !(hasId id_ x))) := by
        unfold base_controller.delete
        rw [if_neg hflen]
      rw [hbase, hbc, hra]
      exact ⟨rfl, rfl⟩
  · intro hnone
    have hf : db.find? (hasId id_) = none :=
      List.find?_eq_none.mpr (fun x hx => by simpa [hasId] using hnone x hx)
    have hfil : db.filter (hasId id_) = [] :=
      List.filter_eq_nil_iff.mpr (fun x hx => by simpa [hasId] using hnone x hx)
    have hbase : base.delete db id_ = (.ok false, db) := by
      unfold base.delete base.get_by_id
      rw [hf]
    have hbc : base_controller.delete db id_ = (.error .recordNotFound, db) := by
      unfold base_controller.delete
      simp [hfil]
    exact ⟨hbase, hbc⟩

theorem paginate_def (m : Model) (db : DB) (page per_page : Int)
    (filters : List (String × FilterVal)) :
    base_controller.paginate m db page per_page filters =
      ({ items := ((base_controller.apply_filters m db filters).drop
            ((page - 1) * per_page).toNat).take per_page.toNat,
         total := ((base_controller.apply_filters m db filters).length : Int),
         page := page, per_page := per_page,
         pages := (((base_controller.apply_filters m db filters).length : Int)
            + per_page - 1).fdiv per_page }, db) := rfl

/-- C4: for `page ≥ 1` and `per_page ≥ 1`, `paginate` reports as `total` the
number of rows matching the filters before pagination, as `items` the slice
skipping the first `(page-1)*per_page` matching rows and keeping at most
`per_page` of them, echoes `page` and `per_page`, and reports as `pages` the
value `(total + per_page - 1) // per_page`, which is the ceiling of
`total / per_page` (the unique integer with
`total ≤ pages*per_page < total + per_page`); the store is untouched. -/
theorem C4_paginate_spec (m : Model) (db : DB) (filters : List (String × FilterVal))
    (page per_page : Int) (hpage : 1 ≤ page) (hpp : 1 ≤ per_page) :
    (base_controller.paginate m db page per_page filters).1.total =
      ((base_controller.apply_filters m db filters).length : Int) ∧
    (base_controller.paginate m db page per_page filters).1.page = page ∧
    (base_controller.paginate m db page per_page filters).1.per_page = per_page ∧
    (base_controller.paginate m db page per_page filters).1.items =
      ((base_controller.apply_filters m db filters).drop
        ((page - 1) * per_page).toNat).take per_page.toNat ∧
    ((base_controller.paginate m db page per_page filters).1.items.length : Int) ≤ per_page ∧
    (base_controller.paginate m db page per_page filters).1.pages =
      (((base_controller.apply_filters m db filters).length : Int)
        + per_page - 1).fdiv per_page ∧
    (base_controller.paginate m db page per_page filters).1.total ≤
      (base_controller.paginate m db page per_page filters).1.pages * per_page ∧
    (base_controller.paginate m db page per_page filters).1.pages * per_page <
      (base_controller.paginate m db page per_page filters).1.total + per_page ∧
    (base_controller.paginate m db page per_page filters).2 = db := by
  rw [paginate_def]
  refine ⟨rfl, rfl, rfl, rfl, ?_, rfl, ?_, ?_, rfl⟩
  · have hlen : ((((base_controller.apply_filters m db filters).drop
        ((page - 1) * per_page).toNat).take per_page.toNat).length : Nat) ≤ per_page.toNat :=
      List.length_take_le _ _
    have hcast : ((((base_controller.apply_filters m db filters).drop
        ((page - 1) * per_page).toNat).take per_page.toNat).length : Int)
        ≤ (per_page.toNat : Int) := by exact_mod_cast hlen
    rwa [Int.toNat_of_nonneg (by omega : (0:Int) ≤ per_page)] at hcast
  all_goals
    dsimp only
    set T : Int := ((base_controller.apply_filters m db filters).length : Int) with hT
    have hT0 : 0 ≤ T := by positivity
    rw [Int.fdiv_eq_ediv _ (by omega : (0:Int) ≤ per_page)]
    have key := Int.ediv_add_emod (T + per_page - 1) per_page
    have h2 := Int.emod_nonneg (T + per_page - 1) (show per_page ≠ 0 by omega)
    have h3 := Int.emod_lt_of_pos (T + per_page - 1) (show (0:Int) < per_page by omega)
    have hc : ((T + per_page - 1) / per_page) * per_page
        = per_page * ((T + per_page - 1) / per_page) := mul_comm _ _
    linarith [key, h2, h3, hc]

/-- Closed witness for C4 at `page = 2`, `per_page = 1` on the concrete
store. -/
theorem C4_witness :
    (base_controller.paginate sampleModel sampleDb 2 1 []).1.items =
      ((base_controller.apply_filters sampleModel sampleDb []).drop
        (((2 : Int) - 1) * 1).toNat).take (1 : Int).toNat ∧
    (base_controller.paginate sampleModel sampleDb 2 1 []).2 = sampleDb := by
  have h := C4_paginate_spec sampleModel sampleDb [] 2 1 (by decide) (by decide)
  exact ⟨h.2.2.2.1, h.2.2.2.2.2.2.2.2⟩

/-- C10: `paginate` performs no parameter validation: for any integer `page`
(including `page < 1`) and positive `per_page` it returns normally, using the
offset `(page - 1) * per_page`, which is negative when `page < 1`, while the
never-invoked static helper `_validate_pagination` would raise `ValueError`
on such a `page`. -/
theorem C10_paginate_no_validation (m : Model) (db : DB)
    (filters : List (String × FilterVal)) (page per_page : Int) (hpp : 1 ≤ per_page) :
    (base_controller.paginate m db page per_page filters).1.items =
      ((base_controller.apply_filters m db filters).drop
        (base_controller.paginateOffset page per_page).toNat).take per_page.toNat ∧
    (base_controller.paginate m db page per_page filters).2 = db ∧
    (page < 1 →
      base_controller.paginateOffset page per_page < 0 ∧
      base.validate_pagination page per_page = .error .valueError) := by
  refine ⟨rfl, rfl, fun hlt => ⟨?_, ?_⟩⟩
  · unfold base_controller.paginateOffset
    exact mul_neg_of_neg_of_pos (by omega) (by omega)
  · unfold base.validate_pagination
    rw [if_pos hlt]

/-- Closed witness for C10 at `page = 0`, `per_page = 10`. -/
theorem C10_witness :
    base_controller.paginateOffset 0 10 < 0 ∧
    base.validate_pagination 0 10 = .error .valueError ∧
    (base_controller.paginate sampleModel sampleDb 0 10 []).2 = sampleDb := by
  have h := C10_paginate_no_validation sampleModel sampleDb [] 0 10 (by decide)
  exact ⟨(h.2.2 (by decide)).1, (h.2.2 (by decide)).2, h.2.1⟩

theorem update_def (m : Model) (db : DB) (id_ : Int) (kwargs : Rec) :
    base_controller.update m db id_ kwargs =
      if kwargs.any (fun kv => !(m.fields.contains kv.1)) then
        (.error .valueError, db)
      else if (db.filter (hasId id_)).length = 0 then
        (.error .recordNotFound, db)
      else
        match (base_controller.get_by_id
            (db.map (fun x => if hasId id_ x then applyKwargs x kwargs else x)) id_).1 with
        | .ok inst =>
            (.ok inst, db.map (fun x => if hasId id_ x then applyKwargs x kwargs else x))
        | .error e =>
            (.error e, db.map (fun x => if hasId id_ x then applyKwargs x kwargs else x)) := rfl

/-- C2 as stated is false: updating the `id` column itself to a fresh value
commits the change and only then fails the final re-fetch, so
`RecordNotFoundError` is raised while the stored state has changed (the
rollback happens after the commit and undoes nothing). -/
theorem C2_counterexample :
    (base_controller.update sampleModel sampleDb 1 [("id", Value.int 9)]).1 =
      .error .recordNotFound ∧
    (base_controller.update sampleModel sampleDb 1 [("id", Value.int 9)]).2 ≠ sampleDb := by
  exact ⟨rfl, by decide⟩

/-- C2 (amended): provided the keyword arguments do not reassign `id` to a
value other than `id_` (and keys are distinct, as Python keyword arguments
are), `update(id_, **kwargs)` raises `ValueError` leaving the store
unchanged when some key is not a model attribute; raises
`RecordNotFoundError` leaving the store unchanged when all keys are valid
but no row has id `id_`; and otherwise rewrites exactly the rows with id
`id_` by the given bindings — under the primary-key invariant, that is the
single row `r` — returning the updated instance, whose fields take the given
values and whose other fields are untouched. -/
theorem C2_update_spec (m : Model) (db : DB) (id_ : Int) (kwargs : Rec)
    (hkeys : (kwargs.map Prod.fst).Nodup)
    (hid : ∀ kv ∈ kwargs, kv.1 = "id" → kv.2 = Value.int id_)
    (huniq : uniqueIds db) :
    ((∃ kv ∈ kwargs, kv.1 ∉ m.fields) →
      base_controller.update m db id_ kwargs = (.error .valueError, db)) ∧
    ((∀ kv ∈ kwargs, kv.1 ∈ m.fields) →
      (∀ r ∈ db, recordId r ≠ some (.int id_)) →
      base_controller.update m db id_ kwargs = (.error .recordNotFound, db)) ∧
    ((∀ kv ∈ kwargs, kv.1 ∈ m.fields) → ∀ r ∈ db, recordId r = some (.int id_) →
      base_controller.update m db id_ kwargs =
        (.ok (applyKwargs r kwargs),
         db.map (fun x => if hasId id_ x then applyKwargs x kwargs else x)) ∧
      (∀ k v, getF kwargs k = some v → getF (applyKwargs r kwargs) k = some v) ∧
      (∀ k, getF kwargs k = none → getF (applyKwargs r kwargs) k = getF r k)) := by
  refine ⟨?_, ?_, ?_⟩
  · rintro ⟨kv, hm, hout⟩
    have hcond : kwargs.any (fun kv => !(m.fields.contains kv.1)) = true := by
      rw [List.any_eq_true]
      exact ⟨kv, hm, by simpa using hout⟩
    rw [update_def, if_pos hcond]
  · intro hall hnone
    have hcond : ¬(kwargs.any (fun kv => !(m.fields.contains kv.1)) = true) := by
      rw [List.any_eq_true]
      rintro ⟨kv, hm, hout⟩
      exact absurd (hall kv hm) (by simpa using hout)
    have hfil : db.filter (hasId id_) = [] :=
      List.filter_eq_nil_iff.mpr (fun x hx => by simpa [hasId] using hnone x hx)
    rw [update_def, if_neg hcond, hfil]
    rfl
  · intro hall r hr hidr
    have hcond : ¬(kwargs.any (fun kv => !(m.fields.contains kv.1)) = true) := by
      rw [List.any_eq_true]
      rintro ⟨kv, hm, hout⟩
      exact absurd (hall kv hm) (by simpa using hout)
    have hfind : db.find? (hasId id_) = some r :=
      find?_hasId_eq_some db id_ huniq r hr (by simp [hasId, hidr])
    have hne : ¬((db.filter (hasId id_)).length = 0) := by
      have hmm : r ∈ db.filter (hasId id_) :=
        List.mem_filter.mpr ⟨hr, by simp [hasId, hidr]⟩
      intro h0
      rw [List.length_eq_zero] at h0
      rw [h0] at hmm
      cases hmm
    have hpres : ∀ x, hasId id_ (if hasId id_ x then applyKwargs x kwargs else x)
        = hasId id_ x := by
      intro x
      by_cases hx : hasId id_ x
      · rw [if_pos hx, hx]
        have hgx : getF x "id" = some (.int id_) := by simpa [hasId] using hx
        simp [hasId, recordId, getF_applyKwargs_id kwargs id_ hid x hgx]
      · rw [if_neg hx]
    have hfind2 : (db.map (fun x => if hasId id_ x then applyKwargs x kwargs else x)).find?
        (hasId id_) = some (applyKwargs r kwargs) := by
      rw [find?_map_pres (hasId id_) _ hpres db, hfind]
      have hhr : hasId id_ r = true := by simp [hasId, hidr]
      simp [hhr]
    have hget : (base_controller.get_by_id
        (db.map (fun x => if hasId id_ x then applyKwargs x kwargs else x)) id_).1 =
        .ok (applyKwargs r kwargs) := by
      unfold base_controller.get_by_id
      rw [hfind2]
    refine ⟨?_, ?_, ?_⟩
    · rw [update_def, if_neg hcond, if_neg hne, hget]
    · intro k v hkv
      rw [getF_applyKwargs kwargs r k hkeys, hkv]
      rfl
    · intro k hk
      rw [getF_applyKwargs kwargs r k hkeys, hk]
      rfl

/-- Closed witness for C2 (amended): a valid update rewrites the row, an
invalid key errors with the store unchanged, a missing id errors with the
store unchanged. -/
theorem C2_witness :
    base_controller.update sampleModel sampleDb 1 [("age", Value.int 31)] =
      (.ok (applyKwargs sampleRec1 [("age", Value.int 31)]),
       sampleDb.map (fun x =>
         if hasId 1 x then applyKwargs x [("age", Value.int 31)] else x)) ∧
    base_controller.update sampleModel sampleDb 1 [("bogus", Value.int 0)] =
      (.error .valueError, sampleDb) ∧
    base_controller.update sampleModel sampleDb 7 [("age", Value.int 31)] =
      (.error .recordNotFound, sampleDb) := by
  refine ⟨?_, ?_, ?_⟩
  · exact ((C2_update_spec sampleModel sampleDb 1 [("age", Value.int 31)]
      (by decide) (by decide) (by unfold uniqueIds; decide)).2.2
      (by decide) sampleRec1 (by decide) (by decide)).1
  · exact (C2_update_spec sampleModel sampleDb 1 [("bogus", Value.int 0)]
      (by decide) (by decide) (by unfold uniqueIds; decide)).1
      ⟨("bogus", Value.int 0), by decide, by decide⟩
  · exact (C2_update_spec sampleModel sampleDb 7 [("age", Value.int 31)]
      (by decide) (by decide) (by unfold uniqueIds; decide)).2.1
      (by decide) (by decide)

/-- Closed witness for C8 (amended) at concrete inputs. -/
theorem C8_witness :
    base.delete sampleDb 1 = base_controller.delete sampleDb 1 ∧
    base.delete sampleDb 7 = (.ok false, sampleDb) := by
  constructor
  · exact ((C8_delete_equivalence sampleDb 1).1 ⟨sampleRec1, by decide, by decide⟩).1
  · exact ((C8_delete_equivalence sampleDb 7).2 (by decide)).1

theorem infixOf_iff (p s : List Char) : infixOf p s = true ↔ p <:+: s := by
  induction s with
  | nil =>
    show (p.isEmpty = true) ↔ _
    rw [List.isEmpty_iff, List.infix_nil]
  | cons c t ih =>
    show (p.isPrefixOf (c :: t) || infixOf p t) = true ↔ _
    rw [Bool.or_eq_true, List.isPrefixOf_iff_prefix, ih, List.infix_cons_iff]

theorem strContains_iff (s p : String) :
    strContains s p = true ↔ p.toList <:+: s.toList :=
  infixOf_iff p.toList s.toList

theorem key_filters_ok (m : Model) (key : String) (value : FilterVal)
    (h : (splitParts key).length ≤ 2) :
    ∃ l, base_controller.key_filters m key value = .ok l := by
  unfold base_controller.key_filters
  cases hp : splitParts key with
  | nil =>
    rw [if_neg (by simp)]
    by_cases hf : m.fields.contains key = true
    · exact ⟨_, by rw [if_pos hf]⟩
    · exact ⟨_, by rw [if_neg hf]⟩
  | cons a t =>
    cases t with
    | nil =>
      rw [if_neg (by simp)]
      by_cases hf : m.fields.contains key = true
      · exact ⟨_, by rw [if_pos hf]⟩
      · exact ⟨_, by rw [if_neg hf]⟩
    | cons b t2 =>
      cases t2 with
      | nil =>
        rw [if_pos (by simp)]
        by_cases hf : m.fields.contains a = true
        · by_cases ho : base_controller.recognized_operators.contains b = true
          · exact ⟨_, by dsimp only; rw [if_pos hf, if_pos ho]⟩
          · exact ⟨_, by dsimp only; rw [if_pos hf, if_neg ho]⟩
        · exact ⟨_, by dsimp only; rw [if_neg hf]⟩
      | cons c t3 =>
        rw [hp] at h
        simp only [List.length_cons] at h
        omega

theorem collect_filters_ok (m : Model) (kwargs : List (String × FilterVal))
    (h : ∀ kv ∈ kwargs, (splitParts kv.1).length ≤ 2) :
    ∃ fs, base_controller.collect_filters m kwargs = .ok fs ∧
      ∀ r, fs.all (fun f => f r) =
        kwargs.all (fun kv => base_controller.contributed m kv r) := by
  induction kwargs with
  | nil => exact ⟨[], rfl, fun r => rfl⟩
  | cons kv rest ih =>
    obtain ⟨l, hl⟩ := key_filters_ok m kv.1 kv.2 (h kv (List.mem_cons_self _ _))
    obtain ⟨fs, hfs, hall⟩ := ih (fun kv2 hm => h kv2 (List.mem_cons_of_mem _ hm))
    refine ⟨l ++ fs, ?_, ?_⟩
    · show (match base_controller.key_filters m kv.1 kv.2 with
        | .error e => .error e
        | .ok fs1 =>
          match base_controller.collect_filters m rest with
          | .error e => .error e
          | .ok fs2 => .ok (fs1 ++ fs2)) = Except.ok (l ++ fs)
      rw [hl, hfs]
    · intro r
      rw [List.all_append, hall r, List.all_cons]
      have hc : base_controller.contributed m kv r = l.all (fun f => f r) := by
        unfold base_controller.contributed
        rw [hl]
      rw [hc]

/-- C6 as stated is false: a keyword key containing two occurrences of
`'__'` does not merely contribute no predicate — the destructuring
assignment `field, operator = key.split('__')` gets three parts and raises
`ValueError`. -/
theorem C6_counterexample :
    base_controller.find_by_attributes sampleModel sampleDb
      [("a__b__c", FilterVal.v (Value.int 1))] = .error .valueError := rfl

/-- C6 (amended): when every keyword key contains at most one `'__'`,
`find_by_attributes` returns exactly the rows satisfying the conjunction of
the per-key predicates; a `field__op` key with `field` an attribute and `op`
in the dispatch (`like`, `in`, `gt`, `lt`, `gte`, `lte`) contributes the
operator's predicate — `like` a `%value%` substring match, `in` list
membership, `gt`/`lt`/`gte`/`lte` the column comparisons — an unknown field
or operator contributes nothing, and a plain key contributes equality (or
nothing when not an attribute); keys with two or more `'__'` raise
`ValueError` instead. -/
theorem C6_find_by_attributes_spec (m : Model) (db : DB)
    (kwargs : List (String × FilterVal))
    (h : ∀ kv ∈ kwargs, (splitParts kv.1).length ≤ 2) :
    base_controller.find_by_attributes m db kwargs =
      .ok (db.filter (fun r =>
        kwargs.all (fun kv => base_controller.contributed m kv r))) ∧
    (∀ key field operator value r,
      splitParts key = [field, operator] → field ∈ m.fields →
      operator ∈ base_controller.recognized_operators →
      base_controller.contributed m (key, value) r =
        base_controller.op_sem operator value (getF r field)) ∧
    (∀ key field operator value r,
      splitParts key = [field, operator] →
      (field ∉ m.fields ∨ operator ∉ base_controller.recognized_operators) →
      base_controller.contributed m (key, value) r = true) ∧
    (∀ key value r, splitParts key = [key] → key ∈ m.fields →
      base_controller.contributed m (key, .v value) r = (getF r key == some value)) ∧
    (∀ key value r, splitParts key = [key] → key ∉ m.fields →
      base_controller.contributed m (key, value) r = true) ∧
    (∀ s p, base_controller.op_sem "like" (.v (.str p)) (some (.str s)) = strContains s p) ∧
    (∀ s p, strContains s p = true ↔ p.toList <:+: s.toList) ∧
    (∀ vs c, base_controller.op_sem "in" (.list vs) (some c) = vs.contains c) ∧
    (∀ a b : Int, base_controller.op_sem "gt" (.v (.int a)) (some (.int b)) = decide (a < b)) ∧
    (∀ a b : Int, base_controller.op_sem "lt" (.v (.int a)) (some (.int b)) = decide (b < a)) ∧
    (∀ a b : Int,
      base_controller.op_sem "gte" (.v (.int a)) (some (.int b)) = decide (a ≤ b)) ∧
    (∀ a b : Int,
      base_controller.op_sem "lte" (.v (.int a)) (some (.int b)) = decide (b ≤ a)) := by
  have hle : ∀ a b : Int, (decide (a < b) || (Value.int a == Value.int b)) = decide (a ≤ b) := by
    intro a b
    by_cases h : a ≤ b
    · rcases eq_or_lt_of_le h with he | hlt
      · simp [he, h]
      · simp [hlt, h]
    · have h1 : ¬(a < b) := fun hh => h (le_of_lt hh)
      have h2 : ¬(a = b) := fun hh => h (le_of_eq hh)
      simp [h1, h2, h]
  refine ⟨?_, ?_, ?_, ?_, ?_, fun s p => rfl, fun s p => strContains_iff s p,
    fun vs c => rfl, fun a b => rfl, fun a b => rfl, fun a b => hle a b, fun a b => hle b a⟩
  · obtain ⟨fs, hfs, hall⟩ := collect_filters_ok m kwargs h
    unfold base_controller.find_by_attributes
    rw [hfs]
    have hfe := List.filter_congr (l := db) (fun r _ => hall r)
    show Except.ok (db.filter (fun r => fs.all (fun f => f r))) = _
    rw [hfe]
  · intro key field operator value r hsplit hfield hop
    unfold base_controller.contributed base_controller.key_filters
    rw [hsplit, if_pos (by simp)]
    simp [hfield, hop]
  · intro key field operator value r hsplit hdisj
    unfold base_controller.contributed base_controller.key_filters
    rw [hsplit, if_pos (by simp)]
    by_cases hfield : field ∈ m.fields
    · have hop : operator ∉ base_controller.recognized_operators := by
        rcases hdisj with hd | hd
        · exact absurd hfield hd
        · exact hd
      simp [hfield, hop]
    · simp [hfield]
  · intro key value r hsplit hfield
    unfold base_controller.contributed base_controller.key_filters
    rw [hsplit, if_neg (by simp)]
    simp [hfield]
  · intro key value r hsplit hfield
    unfold base_controller.contributed base_controller.key_filters
    rw [hsplit, if_neg (by simp)]
    simp [hfield]

theorem validate_password_iff (pw : String) :
    (AuthController.validate_password pw).1 = true ↔
      (8 ≤ pw.length ∧ pw.length ≤ 50 ∧
       (∃ c ∈ pw.toList, 'A' ≤ c ∧ c ≤ 'Z') ∧
       (∃ c ∈ pw.toList, 'a' ≤ c ∧ c ≤ 'z') ∧
       (∃ c ∈ pw.toList, '0' ≤ c ∧ c ≤ '9') ∧
       (∃ c ∈ pw.toList, c ∈ AuthController.special_characters)) := by
  unfold AuthController.validate_password
  split_ifs with h1 h2 h3 h4 h5 <;>
    simp_all [AuthController.MIN_LENGTH, AuthController.MAX_LENGTH, List.any_eq_true]
  intro hA hB
  exact absurd h1 (by omega)

theorem create_user_ok_of_valid (hash : String → String) (now : String) (db : DB)
    (username email pw sq sa : String) (fn ln : Option String) (ut : String)
    (hv : (AuthController.validate_password pw).1 = true) :
    ∃ res db2, AuthController.create_user hash now db username email pw sq sa fn ln ut =
      (.ok res, db2) := by
  unfold AuthController.create_user
  rw [hv]
  rw [if_neg (by simp)]
  by_cases hex : ((base_controller.exists_ AuthController.UserModel db
      [("username", .v (.str username))]).1
    || (base_controller.exists_ AuthController.UserModel db
      [("email", .v (.str email))]).1) = true
  · rw [if_pos hex]
    exact ⟨none, db, rfl⟩
  · rw [if_neg hex]
    cases hc : base_controller.create AuthController.UserModel db _ with
    | mk res db2 =>
      cases res with
      | ok inst => exact ⟨some inst, db2, rfl⟩
      | error e => exact ⟨none, db2, rfl⟩

theorem change_password_ok_of_valid (hash : String → String) (db : DB)
    (uid : Int) (npw : String)
    (hv : (AuthController.validate_password npw).1 = true) :
    ∃ b db2, AuthController.change_password hash db uid npw = (.ok b, db2) := by
  unfold AuthController.change_password
  rw [hv]
  rw [if_neg (by simp)]
  cases hu : base_controller.update AuthController.UserModel db uid
      [("password", .str (hash npw))] with
  | mk res db2 =>
    cases res with
    | ok inst => exact ⟨true, db2, rfl⟩
    | error e => exact ⟨false, db2, rfl⟩

/-- C5: `_validate_password` accepts a password exactly when its length lies
in `[8, 50]` and it contains an ASCII uppercase letter, a lowercase letter, a
digit and one of the special characters of the policy's character class; and
`create_user` / `change_password` raise `PasswordValidationError` exactly
when that check rejects the supplied password, in which case the stored
state is untouched. -/
theorem C5_password_policy :
    (∀ pw : String, (AuthController.validate_password pw).1 = true ↔
      (8 ≤ pw.length ∧ pw.length ≤ 50 ∧
       (∃ c ∈ pw.toList, 'A' ≤ c ∧ c ≤ 'Z') ∧
       (∃ c ∈ pw.toList, 'a' ≤ c ∧ c ≤ 'z') ∧
       (∃ c ∈ pw.toList, '0' ≤ c ∧ c ≤ '9') ∧
       (∃ c ∈ pw.toList, c ∈ AuthController.special_characters))) ∧
    (∀ (hash : String → String) (now : String) (db : DB)
        (username email pw sq sa : String) (fn ln : Option String) (ut : String),
      ((AuthController.create_user hash now db username email pw sq sa fn ln ut).1 =
          .error .passwordValidation ↔
        (AuthController.validate_password pw).1 = false) ∧
      ((AuthController.validate_password pw).1 = false →
        (AuthController.create_user hash now db username email pw sq sa fn ln ut).2 = db)) ∧
    (∀ (hash : String → String) (db : DB) (uid : Int) (npw : String),
      ((AuthController.change_password hash db uid npw).1 = .error .passwordValidation ↔
        (AuthController.validate_password npw).1 = false) ∧
      ((AuthController.validate_password npw).1 = false →
        (AuthController.change_password hash db uid npw).2 = db)) := by
  refine ⟨validate_password_iff, ?_, ?_⟩
  · intro hash now db username email pw sq sa fn ln ut
    cases hv : (AuthController.validate_password pw).1 with
    | false =>
      have hres : AuthController.create_user hash now db username email pw sq sa fn ln ut =
          (.error .passwordValidation, db) := by
        unfold AuthController.create_user
        rw [hv]
        rw [if_pos (by simp)]
      rw [hres]
      exact ⟨⟨fun _ => rfl, fun _ => rfl⟩, fun _ => rfl⟩
    | true =>
      obtain ⟨res, db2, hres⟩ :=
        create_user_ok_of_valid hash now db username email pw sq sa fn ln ut hv
      rw [hres]
      refine ⟨⟨fun hcon => Except.noConfusion hcon, fun hfalse => ?_⟩, fun hfalse => ?_⟩
      · cases hfalse
      · cases hfalse
  · intro hash db uid npw
    cases hv : (AuthController.validate_password npw).1 with
    | false =>
      have hres : AuthController.change_password hash db uid npw =
          (.error .passwordValidation, db) := by
        unfold AuthController.change_password
        rw [hv]
        rw [if_pos (by simp)]
      rw [hres]
      exact ⟨⟨fun _ => rfl, fun _ => rfl⟩, fun _ => rfl⟩
    | true =>
      obtain ⟨b, db2, hres⟩ := change_password_ok_of_valid hash db uid npw hv
      rw [hres]
      refine ⟨⟨fun hcon => Except.noConfusion hcon, fun hfalse => ?_⟩, fun hfalse => ?_⟩
      · cases hfalse
      · cases hfalse

/-- Closed witness for C5: a compliant password passes the check; a
too-short one makes `create_user` raise `PasswordValidationError` leaving
the store unchanged. -/
theorem C5_witness :
    (AuthController.validate_password "Abcdef1!").1 = true ∧
    (AuthController.create_user id "t0" sampleDb "u" "e" "weak" "q" "a"
        none none "user").1 = .error .passwordValidation ∧
    (AuthController.create_user id "t0" sampleDb "u" "e" "weak" "q" "a"
        none none "user").2 = sampleDb := by
  refine ⟨?_, ?_, ?_⟩
  · exact (C5_password_policy.1 "Abcdef1!").mpr (by decide)
  · exact (C5_password_policy.2.1 id "t0" sampleDb "u" "e" "weak" "q" "a"
      none none "user").1.mpr (by decide)
  · exact (C5_password_policy.2.1 id "t0" sampleDb "u" "e" "weak" "q" "a"
      none none "user").2 (by decide)

/-- Closed witness for C6 (amended) at a concrete filter set. -/
theorem C6_witness :
    base_controller.find_by_attributes sampleModel sampleDb
        [("name__like", FilterVal.v (Value.str "li")),
         ("age__gt", FilterVal.v (Value.int 25))] =
      .ok (sampleDb.filter (fun r =>
        [("name__like", FilterVal.v (Value.str "li")),
         ("age__gt", FilterVal.v (Value.int 25))].all
          (fun kv => base_controller.contributed sampleModel kv r))) :=
  (C6_find_by_attributes_spec sampleModel sampleDb _ (by decide)).1

end Ksb
